import Mathlib

/-!
Shallow embedding of the collection-synchronization core of the
MVC-modelo_vista_controldor examples, and verification of the spec's
claims about it.

The embedded functions are translated from:
- `src/ejemplos/Inventory/InventoryManagement.tsx` (useInventoryModel:
  fetchProducts / addProduct / updateStock over React state),
- `src/ejemplos/todos/ejemplo en Typescript.md` (in-memory TaskModel:
  getTasks / addTask / toggleTask),
- `src/ejemplos/todos/todos con api.md` (API-backed controller toggleTask),
- `src/ejemplos/users/users.md` (userApi.fetchUsers + UserList effect),
- `src/ejemplos/counter/counter MVC en Typescript.ts` (Count model),
- `src/ejemplos/librería/Usando Singleton para el Controlador.md`
  (BookModel, getBookController singleton),
- `src/ejemplos/librería/Usando Context API para un controlador compartido.md`
  (BookControllerProvider / useBookController).

Asynchronous remote calls are modelled by passing the outcome of the remote
call (`Except` value or HTTP-response record) as an explicit argument to the
state-transition function; JavaScript object references (where aliasing
matters) are modelled with an explicit heap of array cells indexed by `Nat`.
-/

namespace MVC

/-! ### Inventory example: entities and model state

`interface Product { id: number; name: string; price: number; stock: number }`.
Prices such as 999.99 are exact decimal literals carried around unchanged, so
they are modelled as rationals; ids and stocks only ever hold integers. -/

structure Product where
  id : Nat
  name : String
  price : ℚ
  stock : Int
deriving DecidableEq, Repr

/-- The React state of `useInventoryModel`: `products` (initially `[]`),
`loading` (initially `true`), `error` (initially `null`). -/
structure InventoryState where
  products : List Product
  loading : Bool
  error : Option String
deriving DecidableEq, Repr

/-- Initial state: `useState<Product[]>([])`, `useState(true)`,
`useState<string | null>(null)`. -/
def InventoryState.init : InventoryState :=
  { products := [], loading := true, error := none }

/-- `fetchProducts` from `useInventoryModel`: sets loading, awaits
`api.fetchProducts()`; on success stores the returned list and clears
loading; on a thrown error sets the error message and clears loading
(the transient `setLoading(true)` is overwritten in both branches). -/
def fetchProducts (apiResult : Except String (List Product))
    (s : InventoryState) : InventoryState :=
  match apiResult with
  | .ok data => { s with products := data, loading := false }
  | .error _ => { s with error := some "Failed to fetch products", loading := false }

/-- `api.addProduct` resolves with `{ ...product, id: Date.now() }`; the
current clock value is an explicit argument. -/
structure DraftProduct where
  name : String
  price : ℚ
  stock : Int
deriving DecidableEq, Repr

def apiAddProduct (now : Nat) (p : DraftProduct) : Product :=
  { id := now, name := p.name, price := p.price, stock := p.stock }

/-- `addProduct` from `useInventoryModel`: on success appends the entity the
remote call returned (`setProducts([...products, newProduct])`); on a thrown
error sets the error message and leaves the products untouched. -/
def addProduct (apiResult : Except String Product)
    (s : InventoryState) : InventoryState :=
  match apiResult with
  | .ok newProduct => { s with products := s.products ++ [newProduct] }
  | .error _ => { s with error := some "Failed to add product" }

/-- `updateStock` from `useInventoryModel`: on success of the remote call,
`setProducts(products.map(p => p.id === id ? { ...p, stock: newStock } : p))`;
on a thrown error sets the error message and leaves the products untouched. -/
def updateStock (apiResult : Except String Unit) (id : Nat) (newStock : Int)
    (s : InventoryState) : InventoryState :=
  match apiResult with
  | .ok _ =>
      { s with products :=
          s.products.map (fun p => if p.id = id then { p with stock := newStock } else p) }
  | .error _ => { s with error := some "Failed to update stock" }

/-! ### In-memory TaskModel (`ejemplo en Typescript.md` / `ejemplo en REACT.md`) -/

structure Task where
  id : Nat
  title : String
  completed : Bool
deriving DecidableEq, Repr

/-- `class TaskModel { private tasks: Task[] = []; private nextId: number = 1 }` -/
structure TaskModel where
  tasks : List Task
  nextId : Nat
deriving DecidableEq, Repr

def TaskModel.new : TaskModel := { tasks := [], nextId := 1 }

/-- `addTask(title)`: `this.tasks.push({ id: this.nextId++, title, completed: false })`. -/
def TaskModel.addTask (m : TaskModel) (title : String) : TaskModel :=
  { tasks := m.tasks ++ [{ id := m.nextId, title := title, completed := false }],
    nextId := m.nextId + 1 }

/-- `toggleTask(id)`: `this.tasks.find(t => t.id === id)` returns the first
matching task (if any) and its `completed` flag is flipped in place. -/
def toggleFirst (id : Nat) : List Task → List Task
  | [] => []
  | t :: ts =>
      if t.id = id then { t with completed := !t.completed } :: ts
      else t :: toggleFirst id ts

def TaskModel.toggleTask (m : TaskModel) (id : Nat) : TaskModel :=
  { m with tasks := toggleFirst id m.tasks }

/-- Folding a sequence of `addTask` calls, for sequence-level claims. -/
def TaskModel.addTasks (m : TaskModel) (titles : List String) : TaskModel :=
  titles.foldl TaskModel.addTask m

/-- Class invariant of `TaskModel`: every stored id is below the `nextId`
counter.  It holds for `TaskModel.new` and is preserved by every method. -/
def TaskInv (m : TaskModel) : Prop :=
  ∀ t ∈ m.tasks, t.id < m.nextId

/-! ### API-backed todos controller (`todos con api.md`)

The controller's `toggleTask` maps over the local list and sets the matching
task's `completed` to `true` (the PATCH body is literally
`{ completed: true }`). -/

def toggleTaskApi (id : Nat) (tasks : List Task) : List Task :=
  tasks.map (fun t => if t.id = id then { t with completed := true } else t)

/-- The controller's `addTask`: `setTasks([...tasks, newTask])`, where
`newTask` is whatever entity `model.addTask` received back from the remote
source (its identifier is server-assigned and not checked locally). -/
def addTaskApi (newTask : Task) (tasks : List Task) : List Task :=
  tasks ++ [newTask]

/-! ### Users example (`users.md`) -/

structure User where
  id : Nat
  name : String
  email : String
  role : String
deriving DecidableEq, Repr

/-- A fetch response: `ok` status plus parsed JSON body. -/
structure HttpResponse (α : Type) where
  ok : Bool
  body : α
deriving DecidableEq, Repr

/-- `fetchUsers` from `api/userApi.ts`:
`if (!response.ok) throw new Error('Error fetching users'); return response.json()`. -/
def fetchUsers (r : HttpResponse (List User)) : Except String (List User) :=
  if !r.ok then .error "Error fetching users" else .ok r.body

/-- The effect of `UserList`'s `fetchData` on the `users` state: on success,
`setUsers(data)`; when `fetchUsers` throws, `setUsers` is never reached and
the state keeps its previous value. -/
def userListFetchData (r : HttpResponse (List User))
    (users : List User) : List User :=
  match fetchUsers r with
  | .ok data => data
  | .error _ => users

/-! ### Counter example (`counter MVC en Typescript.ts`)

`class Count { constructor(private count: number = 0) {} get() {...}
increment() { this.count += 1 } decrement() { if (this.count > 0) this.count -= 1 } }`.
The count starts at the integer 0 and only ever moves by ±1, so it is
modelled as an integer. -/

structure Count where
  count : Int
deriving DecidableEq, Repr

/-- Constructor default: `count = 0`. -/
def Count.new : Count := { count := 0 }

def Count.get (c : Count) : Int := c.count

def Count.increment (c : Count) : Count := { count := c.count + 1 }

def Count.decrement (c : Count) : Count :=
  if c.count > 0 then { count := c.count - 1 } else c

inductive CounterOp
  | increment
  | decrement
deriving DecidableEq, Repr

def Count.step (c : Count) : CounterOp → Count
  | .increment => c.increment
  | .decrement => c.decrement

/-- A sequence of increment/decrement calls against one `Count`. -/
def Count.run (c : Count) (ops : List CounterOp) : Count :=
  ops.foldl Count.step c

/-! ### Library example: BookModel, singleton and context sharing

`BookModel` is constructed with three hardcoded books.  To talk about
JavaScript reference identity ("the same CollectionStore object") the
models live in an explicit heap of array cells: a cell index plays the
role of an object reference, and two accessors return "the same object"
exactly when they return the same cell index. -/

structure Book where
  id : Nat
  title : String
  author : String
deriving DecidableEq, Repr

/-- The literal initializer of the `books` field of `BookModel`. -/
def initialBooks : List Book :=
  [{ id := 1, title := "The Great Gatsby", author := "F. Scott Fitzgerald" },
   { id := 2, title := "1984", author := "George Orwell" },
   { id := 3, title := "To Kill a Mockingbird", author := "Harper Lee" }]

structure BookModel where
  books : List Book
deriving DecidableEq, Repr

/-- `new BookModel()`: the `books` field initializer runs. -/
def BookModel.new : BookModel := { books := initialBooks }

/-- `getBooks() { return this.books; }` -/
def BookModel.getBooks (m : BookModel) : List Book := m.books

/-- `getBookById(id) { return this.books.find(book => book.id === id); }` -/
def BookModel.getBookById (m : BookModel) (id : Nat) : Option Book :=
  m.books.find? (fun book => book.id = id)

/-- A heap of `BookModel` objects; a `Nat` cell index is an object reference
(a `BookController` is a one-field wrapper around its `BookModel`, so a
reference to the controller determines the reference to its model's books). -/
structure BookHeap where
  cells : List (List Book)
deriving DecidableEq, Repr

/-- Reading `ref.model.books` through a reference. -/
def BookHeap.deref (h : BookHeap) (r : Nat) : List Book :=
  h.cells.getD r []

/-- Assigning a new array to the books field of the referenced model. -/
def BookHeap.setCell (h : BookHeap) (r : Nat) (bs : List Book) : BookHeap :=
  { cells := h.cells.set r bs }

/-- The module-level slot of `BookControllerSingleton.ts`:
`let instance: BookController | null = null` plus the heap. -/
structure SingletonState where
  inst : Option Nat
  heap : BookHeap
deriving DecidableEq, Repr

/-- `getBookController()`: `if (!instance) { instance = new BookController(new BookModel()); } return instance;`
Allocation appends a fresh cell holding `initialBooks` and stores its
reference in the slot; otherwise the stored reference is returned as is. -/
def getBookController (s : SingletonState) : Nat × SingletonState :=
  match s.inst with
  | some r => (r, s)
  | none =>
      let r := s.heap.cells.length
      (r, { inst := some r, heap := { cells := s.heap.cells ++ [initialBooks] } })

/-- Well-formedness of the singleton slot: if it holds a reference, that
reference points into the heap.  True of the initial state (`inst = none`)
and preserved by `getBookController`. -/
def SingletonWF (s : SingletonState) : Prop :=
  ∀ r, s.inst = some r → r < s.heap.cells.length

/-- `BookControllerProvider`: constructs `new BookController(new BookModel())`
once at the scope root and supplies that one reference through context. -/
def BookControllerProvider (h : BookHeap) : Nat × BookHeap :=
  (h.cells.length, { cells := h.cells ++ [initialBooks] })

/-- `useBookController()` = `useContext(BookControllerContext)`: every
consumer under the provider reads the one value the provider supplied. -/
def useBookController (ctxValue : Nat) : Nat := ctxValue

/-! ### Heap-based TaskModel, for reference/aliasing claims

In JavaScript `getTasks() { return this.tasks; }` returns the array object
itself, not a copy.  To state claims about what a caller can do with the
returned value, the task arrays live in a heap of cells and `getTasks`
returns the cell reference stored in the model's `tasks` field. -/

structure TaskHeap where
  cells : List (List Task)
deriving DecidableEq, Repr

def TaskHeap.deref (h : TaskHeap) (r : Nat) : List Task :=
  h.cells.getD r []

/-- `arr.push(t)` on the array object `r` points to. -/
def TaskHeap.pushCell (h : TaskHeap) (r : Nat) (t : Task) : TaskHeap :=
  { cells := h.cells.set r (h.cells.getD r [] ++ [t]) }

/-- The reference-level view of a `TaskModel` object: its `tasks` field holds
a reference to an array cell. -/
structure TaskModelRef where
  tasksRef : Nat
  nextId : Nat
deriving DecidableEq, Repr

/-- `getTasks() { return this.tasks; }` — returns the stored array
reference itself; no copy is made. -/
def TaskModelRef.getTasks (m : TaskModelRef) : Nat := m.tasksRef

/-! ### Concrete example values used in closed statements -/

/-- A one-product inventory state with no pending error. -/
def exInventory : InventoryState :=
  { products := [{ id := 1, name := "Laptop", price := (99999 : ℚ) / 100, stock := 50 }],
    loading := false, error := none }

def exTask : Task := { id := 1, title := "Comprar leche", completed := false }

def exTaskModel : TaskModel := { tasks := [exTask], nextId := 2 }

def exTaskHeap : TaskHeap := { cells := [[exTask]] }

def exTaskModelRef : TaskModelRef := { tasksRef := 0, nextId := 2 }

def exNewTask : Task := { id := 5, title := "Hacer la tarea", completed := false }

/-! ## Theorems for the claims -/

/-- C2: a successful `fetchAll` replaces the local collection atomically with
the list the remote call returned; a failed `fetchAll` surfaces an error
(`setError('Failed to fetch products')`, or the thrown `Error('Error fetching
users')` which prevents `setUsers` from running) and leaves the local
collection exactly at its pre-call value. -/
theorem fetchAll_replace_or_unchanged (s : InventoryState)
    (data : List Product) (e : String) (body users : List User) :
    fetchProducts (Except.ok data) s
      = { s with products := data, loading := false } ∧
    fetchProducts (Except.error e) s
      = { s with error := some "Failed to fetch products", loading := false } ∧
    (fetchProducts (Except.error e) s).products = s.products ∧
    fetchUsers { ok := true, body := body } = Except.ok body ∧
    fetchUsers { ok := false, body := body } = Except.error "Error fetching users" ∧
    userListFetchData { ok := true, body := body } users = body ∧
    userListFetchData { ok := false, body := body } users = users :=
  ⟨rfl, rfl, rfl, rfl, rfl, rfl, rfl⟩

/-- C6, counterexample: `BookModel` is a `CollectionStore` of the corpus
(the library example), and its collection is not empty immediately after
construction — the `books` field initializer pre-seeds three books before
any fetch runs. -/
theorem bookModel_not_empty_at_construction :
    BookModel.new.books ≠ [] := by
  simp [BookModel.new, initialBooks]

/-- C6, amended: the task and inventory stores start with an empty
collection, but the library `BookModel` starts pre-populated with its fixed
three-book catalog (and is never fetched). -/
theorem collection_at_construction :
    TaskModel.new.tasks = [] ∧
    InventoryState.init.products = [] ∧
    BookModel.new.books = initialBooks ∧
    BookModel.new.books.length = 3 :=
  ⟨rfl, rfl, rfl, rfl⟩

/-- Auxiliary: running counter operations preserves non-negativity. -/
theorem count_run_nonneg (ops : List CounterOp) (c : Count)
    (h : 0 ≤ c.count) : 0 ≤ (c.run ops).count := by
  induction ops generalizing c with
  | nil => exact h
  | cons op ops ih =>
      apply ih
      cases op with
      | increment =>
          show 0 ≤ c.count + 1
          omega
      | decrement =>
          show 0 ≤ (if c.count > 0 then Count.mk (c.count - 1) else c).count
          split
          · next hc =>
              show 0 ≤ c.count - 1
              omega
          · exact h

/-- C8: starting from the initial value 0, after any sequence of increment
and decrement calls the value `get()` returns is non-negative, and a
decrement issued while the count is 0 leaves it at 0. -/
theorem counter_never_negative (ops : List CounterOp) :
    0 ≤ (Count.new.run ops).get ∧
    (Count.mk 0).decrement.get = 0 :=
  ⟨count_run_nonneg ops Count.new (by simp [Count.new]), rfl⟩

/-- Auxiliary: flipping the first task matching `id` twice is the identity. -/
theorem toggleFirst_toggleFirst (id : Nat) (ts : List Task) :
    toggleFirst id (toggleFirst id ts) = ts := by
  induction ts with
  | nil => rfl
  | cons t ts ih =>
      by_cases h : t.id = id
      · obtain ⟨tid, ttitle, tcomp⟩ := t
        have h2 : tid = id := h
        subst h2
        simp [toggleFirst, Bool.not_not]
      · simp [toggleFirst, h, ih]

/-- C9: for the in-memory `TaskModel`, `toggleTask` is an involution —
applying it twice with the same identifier restores the model (in
particular for every identifier present in the task list). -/
theorem toggleTask_involution (m : TaskModel) (id : Nat) :
    (m.toggleTask id).toggleTask id = m := by
  simp [TaskModel.toggleTask, toggleFirst_toggleFirst]

/-- C10: the API-backed controller's `toggleTask` sets the matching task's
`completed` flag to `true` regardless of its prior value, so it is
idempotent on the local collection: applying it twice with the same
identifier yields the same list as applying it once. -/
theorem toggleTaskApi_idempotent (id : Nat) (tasks : List Task) :
    toggleTaskApi id (toggleTaskApi id tasks) = toggleTaskApi id tasks ∧
    ∀ t ∈ toggleTaskApi id tasks, t.id = id → t.completed = true := by
  constructor
  · induction tasks with
    | nil => rfl
    | cons t ts ih =>
        by_cases h : t.id = id
        · simp [toggleTaskApi, h] at ih ⊢
          exact ih
        · simp [toggleTaskApi, h] at ih ⊢
          exact ih
  · intro t ht hid
    obtain ⟨u, hu, hut⟩ := List.mem_map.1 ht
    by_cases h : u.id = id
    · simp [h] at hut
      rw [← hut]
    · simp [h] at hut
      rw [← hut] at hid
      exact absurd hid h

/-- Auxiliary: `toggleFirst` with an identifier absent from the list is the
identity. -/
theorem toggleFirst_not_mem (id : Nat) (ts : List Task)
    (h : id ∉ ts.map Task.id) : toggleFirst id ts = ts := by
  induction ts with
  | nil => rfl
  | cons t ts ih =>
      simp only [List.map_cons, List.mem_cons, not_or] at h
      obtain ⟨h1, h2⟩ := h
      have hne : ¬ t.id = id := fun hh => h1 hh.symm
      simp [toggleFirst, hne, ih h2]

/-- Auxiliary: the `updateStock` map with an identifier absent from the list
is the identity. -/
theorem updateStock_map_not_mem (id : Nat) (ns : Int) (ps : List Product)
    (h : id ∉ ps.map Product.id) :
    ps.map (fun p => if p.id = id then { p with stock := ns } else p) = ps := by
  induction ps with
  | nil => rfl
  | cons p ps ih =>
      simp only [List.map_cons, List.mem_cons, not_or] at h
      obtain ⟨h1, h2⟩ := h
      have hne : ¬ p.id = id := fun hh => h1 hh.symm
      simp [hne, ih h2]

/-- C1, counterexample: an `update` call whose identifier (99) is absent from
the local collection does not fail at all — the inventory `updateStock` runs
its success path leaving `error` at `none` (the only failure channel the code
has) and the collection unchanged, and the in-memory `toggleTask` silently
returns with the model unchanged.  No `NotFound` failure exists anywhere in
the code. -/
theorem update_absent_id_no_failure :
    (updateStock (Except.ok ()) 99 5 exInventory).error = none ∧
    (updateStock (Except.ok ()) 99 5 exInventory).products = exInventory.products ∧
    exTaskModel.toggleTask 99 = exTaskModel :=
  ⟨rfl, rfl, rfl⟩

/-- C1, amended: an `update` call (`updateStock` / `toggleTask`) whose
identifier is absent from the local collection leaves the collection exactly
unchanged, but it does not fail with `NotFound`: it completes silently as a
no-op, with the error state untouched. -/
theorem update_absent_id_silent_noop (s : InventoryState) (id : Nat) (ns : Int)
    (m : TaskModel)
    (h1 : id ∉ s.products.map Product.id)
    (h2 : id ∉ m.tasks.map Task.id) :
    (updateStock (Except.ok ()) id ns s).products = s.products ∧
    (updateStock (Except.ok ()) id ns s).error = s.error ∧
    m.toggleTask id = m := by
  refine ⟨?_, rfl, ?_⟩
  · exact updateStock_map_not_mem id ns s.products h1
  · show { m with tasks := toggleFirst id m.tasks } = m
    rw [toggleFirst_not_mem id m.tasks h2]

/-- C1 witness: the amended theorem instantiated at identifier 99, absent
from the concrete one-element collections. -/
theorem update_absent_id_silent_noop_witness :
    (updateStock (Except.ok ()) 99 5 exInventory).products = exInventory.products ∧
    (updateStock (Except.ok ()) 99 5 exInventory).error = exInventory.error ∧
    exTaskModel.toggleTask 99 = exTaskModel :=
  update_absent_id_silent_noop exInventory 99 5 exTaskModel (by decide) (by decide)

/-- C10 witness: instantiating the idempotence theorem on a concrete
one-task list, with the membership hypothesis discharged concretely. -/
theorem toggleTaskApi_idempotent_witness :
    toggleTaskApi 1 (toggleTaskApi 1 [exTask]) = toggleTaskApi 1 [exTask] ∧
    ({ id := 1, title := "Comprar leche", completed := true } : Task).completed = true :=
  ⟨(toggleTaskApi_idempotent 1 [exTask]).1,
   (toggleTaskApi_idempotent 1 [exTask]).2
     { id := 1, title := "Comprar leche", completed := true } (by decide) rfl⟩

/-! ### C3: create appends one entity per call; identifier freshness -/

/-- Two drafts submitted in quick succession to the inventory model. -/
def exDraftA : DraftProduct := { name := "Monitor", price := 199, stock := 10 }

def exDraftB : DraftProduct := { name := "Keyboard", price := 49, stock := 30 }

/-- One `Date.now()` reading: both `api.addProduct` calls resolve within the
same millisecond, so both created entities receive this identifier. -/
def exClock : Nat := 1700000000000

def exCreate1 : InventoryState :=
  addProduct (Except.ok (apiAddProduct exClock exDraftA)) exInventory

def exCreate2 : InventoryState :=
  addProduct (Except.ok (apiAddProduct exClock exDraftB)) exCreate1

/-- C3, counterexample: a sequence of two successful `addProduct` calls whose
`api.addProduct` resolutions fall in the same millisecond (`id: Date.now()`)
appends, on the second call, an entity whose identifier is already present in
the collection — the code appends whatever the remote call returned with no
freshness check, so the collection ends with a duplicate identifier. -/
theorem create_duplicate_id :
    (apiAddProduct exClock exDraftB).id ∈ exCreate1.products.map Product.id ∧
    exCreate2.products = exCreate1.products ++ [apiAddProduct exClock exDraftB] ∧
    ¬ (exCreate2.products.map Product.id).Nodup := by
  refine ⟨?_, rfl, ?_⟩
  · simp [exCreate1, exInventory, addProduct, apiAddProduct]
  · simp [exCreate1, exCreate2, exInventory, addProduct, apiAddProduct]

/-- Auxiliary: the one-step shape of `addTask`. -/
theorem addTask_tasks (m : TaskModel) (title : String) :
    (m.addTask title).tasks
      = m.tasks ++ [{ id := m.nextId, title := title, completed := false }] := rfl

/-- Auxiliary: the class invariant holds of a freshly constructed model. -/
theorem taskInv_new : TaskInv TaskModel.new := by
  intro t ht
  simp [TaskModel.new] at ht

/-- Auxiliary: `addTask` preserves the class invariant. -/
theorem taskInv_addTask (m : TaskModel) (title : String) (h : TaskInv m) :
    TaskInv (m.addTask title) := by
  intro t ht
  simp only [TaskModel.addTask, List.mem_append, List.mem_singleton] at ht
  show t.id < m.nextId + 1
  rcases ht with ht | ht
  · exact Nat.lt_succ_of_lt (h t ht)
  · simp [ht]

/-- Auxiliary: `toggleFirst` changes no identifier. -/
theorem toggleFirst_map_id (id : Nat) (ts : List Task) :
    (toggleFirst id ts).map Task.id = ts.map Task.id := by
  induction ts with
  | nil => rfl
  | cons t ts ih =>
      by_cases h : t.id = id
      · simp [toggleFirst, h]
      · simp [toggleFirst, h, ih]

/-- Auxiliary: `toggleTask` also preserves the class invariant, so the
invariant holds in every state reachable through the model methods. -/
theorem taskInv_toggleTask (m : TaskModel) (id : Nat) (h : TaskInv m) :
    TaskInv (m.toggleTask id) := by
  intro t ht
  have hid : t.id ∈ (toggleFirst id m.tasks).map Task.id := List.mem_map_of_mem _ ht
  rw [toggleFirst_map_id] at hid
  obtain ⟨u, hu, huid⟩ := List.mem_map.1 hid
  show t.id < m.nextId
  rw [← huid]
  exact h u hu

/-- Auxiliary: under the class invariant, the next assigned identifier is
absent from the collection. -/
theorem taskInv_fresh (m : TaskModel) (h : TaskInv m) :
    m.nextId ∉ m.tasks.map Task.id := by
  intro hmem
  obtain ⟨t, ht, hid⟩ := List.mem_map.1 hmem
  have := h t ht
  omega

/-- Auxiliary: a sequence of `addTask` calls appends exactly one task per
call, keeps identifiers duplicate-free, and preserves the class invariant. -/
theorem addTasks_spec (titles : List String) (m : TaskModel) (hinv : TaskInv m) :
    (∃ added : List Task,
       (m.addTasks titles).tasks = m.tasks ++ added ∧
       added.length = titles.length) ∧
    ((m.tasks.map Task.id).Nodup → ((m.addTasks titles).tasks.map Task.id).Nodup) ∧
    TaskInv (m.addTasks titles) := by
  induction titles generalizing m with
  | nil => exact ⟨⟨[], by simp [TaskModel.addTasks], rfl⟩, fun h => h, hinv⟩
  | cons title titles ih =>
      have hstep : m.addTasks (title :: titles) = (m.addTask title).addTasks titles := rfl
      obtain ⟨⟨added, hadd, hlen⟩, hnodup, hinv2⟩ :=
        ih (m.addTask title) (taskInv_addTask m title hinv)
      refine ⟨⟨{ id := m.nextId, title := title, completed := false } :: added, ?_, ?_⟩, ?_, ?_⟩
      · rw [hstep, hadd, addTask_tasks]
        simp
      · simp [hlen]
      · intro hnd
        rw [hstep]
        apply hnodup
        rw [addTask_tasks]
        have hfresh := taskInv_fresh m hinv
        simp only [List.map_append, List.map_cons, List.map_nil]
        simp [List.nodup_append, hnd, hfresh]
      · rw [hstep]
        exact hinv2

/-- C3, amended: every successful `create` call appends exactly one entity at
the end of the collection and alters no prior entity, for all three create
operations.  Identifier freshness, however, holds only for the in-memory
`TaskModel`: starting from any state satisfying its `nextId` class invariant
(established at construction and preserved by every method), each appended
task's identifier is distinct from all identifiers already in the collection
and duplicate-freeness is preserved across any sequence of calls.  The
inventory `addProduct` and the API-backed `addTask` append exactly the entity
the remote call returned, with no local freshness check — their identifiers
(`Date.now()`, the server's choice) can duplicate existing ones. -/
theorem create_appends_unique (m : TaskModel) (titles : List String)
    (hinv : TaskInv m) :
    (∃ added : List Task,
       (m.addTasks titles).tasks = m.tasks ++ added ∧
       added.length = titles.length) ∧
    ((m.tasks.map Task.id).Nodup → ((m.addTasks titles).tasks.map Task.id).Nodup) ∧
    TaskInv (m.addTasks titles) ∧
    m.nextId ∉ m.tasks.map Task.id ∧
    (∀ title, (m.addTask title).tasks
       = m.tasks ++ [{ id := m.nextId, title := title, completed := false }]) ∧
    (∀ (s : InventoryState) (newP : Product),
       (addProduct (Except.ok newP) s).products = s.products ++ [newP]) ∧
    (∀ (newTask : Task) (tasks : List Task),
       addTaskApi newTask tasks = tasks ++ [newTask]) := by
  obtain ⟨h1, h2, h3⟩ := addTasks_spec titles m hinv
  exact ⟨h1, h2, h3, taskInv_fresh m hinv,
         fun title => addTask_tasks m title, fun s newP => rfl, fun newTask tasks => rfl⟩

/-- C3 witness: two creates on a fresh model leave the identifier list
duplicate-free, via the theorem applied at the constructed model. -/
theorem create_appends_unique_witness :
    ((TaskModel.new.addTasks ["Comprar leche", "Hacer la tarea"]).tasks.map Task.id).Nodup :=
  (create_appends_unique TaskModel.new ["Comprar leche", "Hacer la tarea"]
      taskInv_new).2.1 (by simp [TaskModel.new])

/-! ### C4: update with an existing identifier preserves order and frame -/

/-- C4: on the success path of `updateStock` (and of the API-backed
`toggleTask`), the collection keeps its length, every position holding an
entity with a different identifier is unchanged, and every position holding
the matching identifier now holds that same entity with exactly the updated
field — so the updated entity sits at its original index and insertion
order is preserved. -/
theorem update_existing_same_position (s : InventoryState) (id : Nat) (ns : Int)
    (tasks : List Task) (i : Nat) :
    (updateStock (Except.ok ()) id ns s).products.length = s.products.length ∧
    (∀ p, s.products[i]? = some p → p.id ≠ id →
       (updateStock (Except.ok ()) id ns s).products[i]? = some p) ∧
    (∀ p, s.products[i]? = some p → p.id = id →
       (updateStock (Except.ok ()) id ns s).products[i]? = some { p with stock := ns }) ∧
    (toggleTaskApi id tasks).length = tasks.length ∧
    (∀ t, tasks[i]? = some t → t.id ≠ id →
       (toggleTaskApi id tasks)[i]? = some t) ∧
    (∀ t, tasks[i]? = some t → t.id = id →
       (toggleTaskApi id tasks)[i]? = some { t with completed := true }) := by
  refine ⟨by simp [updateStock], ?_, ?_, by simp [toggleTaskApi], ?_, ?_⟩
  · intro p hp hne
    show (s.products.map _)[i]? = _
    rw [List.getElem?_map, hp]
    simp [hne]
  · intro p hp heq
    show (s.products.map _)[i]? = _
    rw [List.getElem?_map, hp]
    simp [heq]
  · intro t ht hne
    show (tasks.map _)[i]? = _
    rw [List.getElem?_map, ht]
    simp [hne]
  · intro t ht heq
    show (tasks.map _)[i]? = _
    rw [List.getElem?_map, ht]
    simp [heq]

/-- A two-product inventory state used to instantiate C4. -/
def exInventory2 : InventoryState :=
  { products :=
      [{ id := 1, name := "Laptop", price := (99999 : ℚ) / 100, stock := 50 },
       { id := 2, name := "Smartphone", price := (49999 : ℚ) / 100, stock := 100 }],
    loading := false, error := none }

/-- C4 witness: updating id 2 leaves index 0 untouched and puts the updated
entity at index 1; a non-matching toggle leaves index 0 untouched. -/
theorem update_existing_same_position_witness :
    (updateStock (Except.ok ()) 2 7 exInventory2).products[0]?
      = some { id := 1, name := "Laptop", price := (99999 : ℚ) / 100, stock := 50 } ∧
    (updateStock (Except.ok ()) 2 7 exInventory2).products[1]?
      = some { id := 2, name := "Smartphone", price := (49999 : ℚ) / 100, stock := 7 } ∧
    (toggleTaskApi 2 [exTask])[0]? = some exTask :=
  ⟨(update_existing_same_position exInventory2 2 7 [exTask] 0).2.1 _ rfl (by decide),
   (update_existing_same_position exInventory2 2 7 [exTask] 1).2.2.1 _ rfl rfl,
   (update_existing_same_position exInventory2 2 7 [exTask] 0).2.2.2.2.1 exTask rfl (by decide)⟩

/-! ### C5: shared-instance accessors return the same store -/

/-- Auxiliary: writing a cell through a valid reference and reading it back
through the same reference yields the written value. -/
theorem deref_setCell_self (h : BookHeap) (r : Nat) (bs : List Book)
    (hr : r < h.cells.length) : (h.setCell r bs).deref r = bs := by
  simp [BookHeap.setCell, BookHeap.deref, List.getD, List.getElem?_set_self, hr]

/-- C5: in any well-formed singleton state, two consecutive
`getBookController()` calls return the same object reference and the second
call changes nothing, so a mutation performed through the first returned
reference is observable through the second; likewise, consumers under one
`BookControllerProvider` scope all receive the provider's single reference,
through which mutations are mutually visible. -/
theorem getInstance_shared (s : SingletonState) (hwf : SingletonWF s) :
    (getBookController (getBookController s).2).1 = (getBookController s).1 ∧
    (getBookController (getBookController s).2).2 = (getBookController s).2 ∧
    (∀ bs, ((getBookController s).2.heap.setCell (getBookController s).1 bs).deref
        (getBookController (getBookController s).2).1 = bs) ∧
    (∀ (hp : BookHeap) (bs : List Book),
       useBookController (BookControllerProvider hp).1 = (BookControllerProvider hp).1 ∧
       ((BookControllerProvider hp).2.setCell
           (useBookController (BookControllerProvider hp).1) bs).deref
         (useBookController (BookControllerProvider hp).1) = bs) := by
  have hctx : ∀ (hp : BookHeap) (bs : List Book),
      useBookController (BookControllerProvider hp).1 = (BookControllerProvider hp).1 ∧
      ((BookControllerProvider hp).2.setCell
          (useBookController (BookControllerProvider hp).1) bs).deref
        (useBookController (BookControllerProvider hp).1) = bs := by
    intro hp bs
    refine ⟨rfl, deref_setCell_self _ _ _ ?_⟩
    show hp.cells.length < (hp.cells ++ [initialBooks]).length
    simp
  cases hs : s.inst with
  | some r =>
      have hr : r < s.heap.cells.length := hwf r hs
      refine ⟨?_, ?_, ?_, hctx⟩ <;> simp [getBookController, hs]
      intro bs
      exact deref_setCell_self _ _ _ hr
  | none =>
      refine ⟨?_, ?_, ?_, hctx⟩ <;> simp [getBookController, hs]
      intro bs
      refine deref_setCell_self _ _ _ ?_
      simp

/-- C5 witness: the theorem applied at the initial module state (empty slot,
empty heap): both calls return the same reference. -/
theorem getInstance_shared_witness :
    (getBookController (getBookController ⟨none, ⟨[]⟩⟩).2).1
      = (getBookController (⟨none, ⟨[]⟩⟩ : SingletonState)).1 :=
  (getInstance_shared ⟨none, ⟨[]⟩⟩ (by intro r hr; simp at hr)).1

/-! ### C7: read operations return the live array, not a copy -/

/-- C7, counterexample: `getTasks()` returns the store's internal array
object itself; a caller pushing onto the returned array changes the
collection held by the model — the store's collection after the caller's
mutation differs from its value before. -/
theorem getTasks_not_a_copy :
    (exTaskHeap.pushCell exTaskModelRef.getTasks exNewTask).deref exTaskModelRef.tasksRef
      ≠ exTaskHeap.deref exTaskModelRef.tasksRef := by
  decide

/-- C7, amended: `getTasks` returns the internal array by reference (no copy
is made): the returned value is exactly the store's `tasks` reference, and a
caller appending through it extends the collection held by the store.
Callers only preserve encapsulation by convention, routing mutations through
the model's methods. -/
theorem getTasks_returns_alias (h : TaskHeap) (m : TaskModelRef) (t : Task)
    (hr : m.tasksRef < h.cells.length) :
    m.getTasks = m.tasksRef ∧
    (h.pushCell m.getTasks t).deref m.tasksRef = h.deref m.tasksRef ++ [t] := by
  refine ⟨rfl, ?_⟩
  simp [TaskModelRef.getTasks, TaskHeap.pushCell, TaskHeap.deref, List.getD,
        List.getElem?_set_self, hr]

/-- C7 witness: the amended theorem at the concrete one-cell heap. -/
theorem getTasks_returns_alias_witness :
    (exTaskHeap.pushCell exTaskModelRef.getTasks exNewTask).deref exTaskModelRef.tasksRef
      = exTaskHeap.deref exTaskModelRef.tasksRef ++ [exNewTask] :=
  (getTasks_returns_alias exTaskHeap exTaskModelRef exNewTask (by decide)).2

end MVC
